import Mathlib

/-!
Shallow embedding of the order-placement and cart core of the Marketback
marketplace backend (Go, PostgreSQL).

The database state is modelled as lists of rows for the tables touched by the
checkout path (`products`, `carts`, `cart_items`, `orders`, `order_items`),
with SERIAL primary keys modelled as explicit counters.  Currency amounts
(`DECIMAL(10,2)` columns, Go `float64`) are modelled as exact rationals.
SQL `INTEGER` columns and Go `int` values are modelled as `Int`.

Embedded operations (each translated from the corresponding Go function):
* `OrderRepository.Create`   — service/Market/internal/repository/order.go
* `CartRepository.AddItem`, `CartRepository.GetUserCart`
                             — service/Market/internal/repository/cart.go
* `MarketService.CreateOrder`— service/Market/internal/service/market.go

A repository function that runs inside a database transaction and returns an
error rolls the transaction back, so the caller-visible state on the error
path is the unchanged input state; `createResultState` / `serviceResultState`
make that visible state explicit.
-/

/-- A row of the `products` table (migration `0003`): `id SERIAL PRIMARY KEY`,
`price DECIMAL(10,2)`, `stock INTEGER`. -/
structure ProductRow where
  id : Int
  price : Rat
  stock : Int
  deriving DecidableEq, Repr

/-- A row of the `carts` table: `id SERIAL PRIMARY KEY`, `user_id INTEGER`. -/
structure CartRow where
  id : Int
  userId : Int
  deriving DecidableEq, Repr

/-- A row of the `cart_items` table (migration in `0006`): `color` is a
nullable `VARCHAR(50)` column, hence an `Option`.  The table carries
`UNIQUE(cart_id, product_id, size, color)` and
`cart_id REFERENCES carts(id) ON DELETE CASCADE`. -/
structure CartItemRow where
  id : Int
  cartId : Int
  productId : Int
  quantity : Int
  size : String
  color : Option String
  deriving DecidableEq, Repr

/-- A row of the `orders` table (migration `0007`). -/
structure OrderRow where
  id : Int
  userId : Int
  totalAmount : Rat
  status : String
  paymentMethod : String
  paymentStatus : String
  deliveryAddr : String
  deriving DecidableEq, Repr

/-- A row of the `order_items` table: `price` is the snapshot unit price. -/
structure OrderItemRow where
  id : Int
  orderId : Int
  productId : Int
  quantity : Int
  size : String
  price : Rat
  deriving DecidableEq, Repr

/-- Go model `models.CartItemWithDetails`: a cart line joined with its
current product price, as returned by `CartRepository.GetUserCart`. -/
structure CartItemWithDetails where
  id : Int
  userId : Int
  productId : Int
  quantity : Int
  size : String
  productPrice : Rat
  deriving DecidableEq, Repr

/-- Go model `models.AddToCartRequest` (fields `product_id`, `quantity`,
`size`; the request carries no color field). -/
structure AddToCartRequest where
  productId : Int
  quantity : Int
  size : String
  deriving DecidableEq, Repr

/-- Go model `models.CreateOrderRequest`. -/
structure CreateOrderRequest where
  paymentMethod : String
  deliveryAddr : String
  deriving DecidableEq, Repr

/-- Go model `models.OrderWithItems`: the value returned by a successful
`OrderRepository.Create`. -/
structure OrderWithItems where
  order : OrderRow
  items : List OrderItemRow
  deriving DecidableEq, Repr

/-- The persistent database state visible to the checkout path. -/
structure MarketDB where
  products : List ProductRow
  carts : List CartRow
  cartItems : List CartItemRow
  orders : List OrderRow
  orderItems : List OrderItemRow
  nextCartId : Int
  nextCartItemId : Int
  nextOrderId : Int
  nextOrderItemId : Int
  deriving DecidableEq, Repr

/-- The typed failures of `OrderRepository.Create` (order.go): product row
missing at lock time, insufficient stock found by the validate loop, and the
defense-in-depth rows-affected check of the stock decrement
("concurrent modification detected"). -/
inductive CreateErr where
  | productNotFound (productId : Int)
  | insufficientStock (productId requested available : Int)
  | stockUpdateConflict (productId : Int)
  deriving DecidableEq, Repr

/-- The failures of `MarketService.CreateOrder` (market.go): `ErrEmptyCart`,
or an error propagated from the order repository. -/
inductive ServiceErr where
  | emptyCart
  | repo (e : CreateErr)
  deriving DecidableEq, Repr

/-- `SELECT ... FROM products WHERE id = $1` via `QueryRow`: the first row
with the given id, or `none` (pgx.ErrNoRows). -/
def findProduct (ps : List ProductRow) (pid : Int) : Option ProductRow :=
  ps.find? (fun p => p.id == pid)

/-- The first loop of `OrderRepository.Create` (order.go lines 31-53): for
each item in list order, `SELECT stock FROM products WHERE id = $1 FOR UPDATE`
and compare the stock just read to the requested quantity.  Returns the first
error found, or `none` when every line validates. -/
def validatePhase (ps : List ProductRow) : List CartItemWithDetails → Option CreateErr
  | [] => none
  | item :: rest =>
    match findProduct ps item.productId with
    | none => some (.productNotFound item.productId)
    | some p =>
      if p.stock < item.quantity then
        some (.insufficientStock item.productId item.quantity p.stock)
      else
        validatePhase ps rest

/-- The sequence of product ids on which the validate loop issues its
`FOR UPDATE` row locks: one lock statement per item, in the order the items
list presents them (order.go lines 31-34). -/
def lockAcquisitionOrder (items : List CartItemWithDetails) : List Int :=
  items.map (fun item => item.productId)

/-- Effect of `UPDATE products SET stock = stock - $1 WHERE id = $2 AND
stock >= $1` on the products table: every row matching the `WHERE` clause is
decremented, the rest are unchanged. -/
def applyStockUpdate (ps : List ProductRow) (pid qty : Int) : List ProductRow :=
  ps.map (fun p =>
    if p.id == pid && decide (qty ≤ p.stock) then { p with stock := p.stock - qty } else p)

/-- `RowsAffected()` of that `UPDATE`: the number of rows matching its
`WHERE` clause. -/
def rowsAffected (ps : List ProductRow) (pid qty : Int) : Nat :=
  (ps.filter (fun p => p.id == pid && decide (qty ≤ p.stock))).length

/-- The second loop of `OrderRepository.Create` (order.go lines 55-72): run
the conditional stock decrement for each item in list order; if the decrement
affects a number of rows other than one, abort with the internal
"concurrent modification detected" error. -/
def updateStockAll (ps : List ProductRow) : List CartItemWithDetails → Except CreateErr (List ProductRow)
  | [] => .ok ps
  | item :: rest =>
    if rowsAffected ps item.productId item.quantity = 1 then
      updateStockAll (applyStockUpdate ps item.productId item.quantity) rest
    else
      .error (.stockUpdateConflict item.productId)

/-- `totalAmount` accumulation of order.go lines 74-77:
`totalAmount += item.ProductPrice * float64(item.Quantity)`. -/
def totalAmount (items : List CartItemWithDetails) : Rat :=
  items.foldl (fun acc item => acc + item.productPrice * (item.quantity : Rat)) 0

/-- The `order_items` insert loop (order.go lines 106-134): one row per cart
item, in list order, snapshotting quantity, size and unit price from the cart
line; ids are consecutive SERIAL values. -/
def mkOrderItems (startId orderId : Int) : List CartItemWithDetails → List OrderItemRow
  | [] => []
  | item :: rest =>
    { id := startId, orderId := orderId, productId := item.productId,
      quantity := item.quantity, size := item.size, price := item.productPrice }
      :: mkOrderItems (startId + 1) orderId rest

/-- `OrderRepository.Create` (order.go lines 23-158), as one transaction:
validate every line under lock, run the conditional stock decrements, insert
the order row (status and payment_status take their column defaults
`pending`), insert one order_items row per line, and delete the rows of the user
from `carts` — which removes their `cart_items` rows through the
`ON DELETE CASCADE` foreign key.  Any error aborts the transaction: the
caller-visible state is then the unchanged input state. -/
def OrderRepository.Create (db : MarketDB) (userID : Int) (req : CreateOrderRequest)
    (items : List CartItemWithDetails) : Except CreateErr (MarketDB × OrderWithItems) :=
  match validatePhase db.products items with
  | some e => .error e
  | none =>
    match updateStockAll db.products items with
    | .error e => .error e
    | .ok products2 =>
      let order : OrderRow :=
        { id := db.nextOrderId, userId := userID, totalAmount := totalAmount items,
          status := "pending", paymentMethod := req.paymentMethod,
          paymentStatus := "pending", deliveryAddr := req.deliveryAddr }
      let lines := mkOrderItems db.nextOrderItemId order.id items
      let deletedCartIds := (db.carts.filter (fun c => c.userId == userID)).map (fun c => c.id)
      let db2 : MarketDB :=
        { db with
          products := products2
          orders := db.orders ++ [order]
          orderItems := db.orderItems ++ lines
          carts := db.carts.filter (fun c => !(c.userId == userID))
          cartItems := db.cartItems.filter (fun ci => !(deletedCartIds.contains ci.cartId))
          nextOrderId := db.nextOrderId + 1
          nextOrderItemId := db.nextOrderItemId + (lines.length : Int) }
      .ok (db2, { order := order, items := lines })

/-- The database state visible after `OrderRepository.Create` returns:
the new state on success, the unchanged state on error (rollback). -/
def createResultState (db : MarketDB) (userID : Int) (req : CreateOrderRequest)
    (items : List CartItemWithDetails) : MarketDB :=
  match OrderRepository.Create db userID req items with
  | .error _ => db
  | .ok (db2, _) => db2

/-- `CartRepository.GetUserCart` (cart.go lines 70-116): the join of
`cart_items` with `carts` (on cart id) and `products` (on product id),
restricted to the given user, each row carrying the current product price.
`ORDER BY ci.created_at DESC` is modelled as reversing insertion order. -/
def CartRepository.GetUserCart (db : MarketDB) (userID : Int) : List CartItemWithDetails :=
  (db.cartItems.filterMap (fun ci =>
    match db.carts.find? (fun c => c.id == ci.cartId), findProduct db.products ci.productId with
    | some c, some p =>
      if c.userId == userID then
        some { id := ci.id, userId := c.userId, productId := ci.productId,
               quantity := ci.quantity, size := ci.size, productPrice := p.price }
      else none
    | _, _ => none)).reverse

/-- `MarketService.CreateOrder` (market.go lines 22-33): fetch the cart of the
user; if it is empty return `ErrEmptyCart` without calling the order
repository; otherwise delegate to `OrderRepository.Create`. -/
def MarketService.CreateOrder (db : MarketDB) (userID : Int) (req : CreateOrderRequest) :
    Except ServiceErr (MarketDB × OrderWithItems) :=
  let cartItems := CartRepository.GetUserCart db userID
  if cartItems.isEmpty then
    .error .emptyCart
  else
    match OrderRepository.Create db userID req cartItems with
    | .error e => .error (.repo e)
    | .ok r => .ok r

/-- The database state visible after `MarketService.CreateOrder` returns. -/
def serviceResultState (db : MarketDB) (userID : Int) (req : CreateOrderRequest) : MarketDB :=
  match MarketService.CreateOrder db userID req with
  | .error _ => db
  | .ok (db2, _) => db2

/-- Conflict test of the unique index `UNIQUE(cart_id, product_id, size,
color)` on a nullable column: in PostgreSQL two NULLs are distinct, so a
NULL color never conflicts with anything, NULL included. -/
def pgNullableStrEq (a b : Option String) : Bool :=
  match a, b with
  | some x, some y => x == y
  | _, _ => false

/-- Whether an existing `cart_items` row conflicts with an insert of the
given key under `UNIQUE(cart_id, product_id, size, color)`. -/
def cartConflicts (r : CartItemRow) (cartId productId : Int) (size : String)
    (color : Option String) : Bool :=
  r.cartId == cartId && r.productId == productId && r.size == size
    && pgNullableStrEq r.color color

/-- `getOrCreateCartID` (cart.go lines 56-68): the id of the existing cart
row of the user, or a freshly inserted one. -/
def getOrCreateCartID (db : MarketDB) (userID : Int) : MarketDB × Int :=
  match db.carts.find? (fun c => c.userId == userID) with
  | some c => (db, c.id)
  | none =>
    ({ db with
        carts := db.carts ++ [{ id := db.nextCartId, userId := userID }]
        nextCartId := db.nextCartId + 1 },
     db.nextCartId)

/-- `CartRepository.AddItem` (cart.go lines 21-54): get or create the cart of the
user, then `INSERT INTO cart_items ... ON CONFLICT (cart_id, product_id,
size, color) DO UPDATE SET quantity = cart_items.quantity +
EXCLUDED.quantity`.  The Go code passes `nil` for the color parameter, so
every insert carries a NULL color. -/
def CartRepository.AddItem (db : MarketDB) (userID : Int) (req : AddToCartRequest) :
    MarketDB × CartItemRow :=
  let dc := getOrCreateCartID db userID
  let db1 := dc.1
  let cartId := dc.2
  match db1.cartItems.find? (fun r => cartConflicts r cartId req.productId req.size none) with
  | some r =>
    let updated := { r with quantity := r.quantity + req.quantity }
    ({ db1 with cartItems := db1.cartItems.map (fun r2 => if r2.id == r.id then updated else r2) },
     updated)
  | none =>
    let newRow : CartItemRow :=
      { id := db1.nextCartItemId, cartId := cartId, productId := req.productId,
        quantity := req.quantity, size := req.size, color := none }
    ({ db1 with
        cartItems := db1.cartItems ++ [newRow]
        nextCartItemId := db1.nextCartItemId + 1 },
     newRow)

/-- Total stock the `products` table holds under a given product id (the sum
over all rows with that id; with the primary key there is at most one). -/
def stockOf : List ProductRow → Int → Int
  | [], _ => 0
  | p :: ps, pid => (if p.id == pid then p.stock else 0) + stockOf ps pid

/-- Total quantity a list of cart lines orders for a given product id. -/
def orderedQty : List CartItemWithDetails → Int → Int
  | [], _ => 0
  | i :: rest, pid => (if i.productId == pid then i.quantity else 0) + orderedQty rest pid

/-- Insert into an ascending list of ids. -/
def insertAsc (x : Int) : List Int → List Int
  | [] => [x]
  | y :: ys => if x ≤ y then x :: y :: ys else y :: insertAsc x ys

/-- Ascending insertion sort on ids. -/
def sortAsc : List Int → List Int
  | [] => []
  | x :: xs => insertAsc x (sortAsc xs)

/-- Modelled from the spec: "sort distinct product ids ascending before
acquiring locks" — the lock-acquisition order §4.2 step 2 and §9 of the spec
prescribe, to be compared with the order the source actually uses. -/
def specSortedDistinctProductIds (items : List CartItemWithDetails) : List Int :=
  sortAsc (lockAcquisitionOrder items).dedup

/-- A sequence of checkout attempts, each running `OrderRepository.Create`
on the state left by the previous one (failed attempts roll back). -/
def checkoutSeq (db : MarketDB) :
    List (Int × CreateOrderRequest × List CartItemWithDetails) → MarketDB
  | [] => db
  | c :: rest => checkoutSeq (createResultState db c.1 c.2.1 c.2.2) rest

/-- Decidable equality of `Except` results, for evaluating the embedded
operations on concrete inputs. -/
instance {e a : Type} [DecidableEq e] [DecidableEq a] : DecidableEq (Except e a) :=
  fun x y =>
    match x, y with
    | .error e1, .error e2 =>
      if h : e1 = e2 then .isTrue (by rw [h]) else .isFalse (by simp [h])
    | .ok a1, .ok a2 =>
      if h : a1 = a2 then .isTrue (by rw [h]) else .isFalse (by simp [h])
    | .error _, .ok _ => .isFalse (by simp)
    | .ok _, .error _ => .isFalse (by simp)

/-! ### Concrete scenarios -/

/-- An empty database. -/
def emptyDB : MarketDB :=
  { products := [], carts := [], cartItems := [], orders := [], orderItems := [],
    nextCartId := 1, nextCartItemId := 1, nextOrderId := 1, nextOrderItemId := 1 }

/-- Scenario A database: productA (id 1, price 25, stock 10) and productB
(id 2, price 50, stock 5); user 1 has a cart with 2×productA and 1×productB. -/
def dbA : MarketDB :=
  { products := [{ id := 1, price := 25, stock := 10 }, { id := 2, price := 50, stock := 5 }]
    carts := [{ id := 1, userId := 1 }]
    cartItems := [{ id := 1, cartId := 1, productId := 1, quantity := 2, size := "M", color := none },
                  { id := 2, cartId := 1, productId := 2, quantity := 1, size := "L", color := none }]
    orders := []
    orderItems := []
    nextCartId := 2
    nextCartItemId := 3
    nextOrderId := 1
    nextOrderItemId := 1 }

/-- A fixed checkout request. -/
def reqA : CreateOrderRequest := { paymentMethod := "card", deliveryAddr := "Street 1" }

/-- The cart lines of user 1 in scenario A, as `GetUserCart` returns them. -/
def itemsA : List CartItemWithDetails :=
  [{ id := 2, userId := 1, productId := 2, quantity := 1, size := "L", productPrice := 50 },
   { id := 1, userId := 1, productId := 1, quantity := 2, size := "M", productPrice := 25 }]

/-- The database state committed by the scenario A checkout. -/
def dbA2 : MarketDB :=
  { products := [{ id := 1, price := 25, stock := 8 }, { id := 2, price := 50, stock := 4 }]
    carts := []
    cartItems := []
    orders := [{ id := 1, userId := 1, totalAmount := 100, status := "pending",
                 paymentMethod := "card", paymentStatus := "pending", deliveryAddr := "Street 1" }]
    orderItems := [{ id := 1, orderId := 1, productId := 2, quantity := 1, size := "L", price := 50 },
                   { id := 2, orderId := 1, productId := 1, quantity := 2, size := "M", price := 25 }]
    nextCartId := 2
    nextCartItemId := 3
    nextOrderId := 2
    nextOrderItemId := 3 }

/-- The order returned by the scenario A checkout. -/
def resA : OrderWithItems :=
  { order := { id := 1, userId := 1, totalAmount := 100, status := "pending",
               paymentMethod := "card", paymentStatus := "pending", deliveryAddr := "Street 1" }
    items := [{ id := 1, orderId := 1, productId := 2, quantity := 1, size := "L", price := 50 },
              { id := 2, orderId := 1, productId := 1, quantity := 2, size := "M", price := 25 }] }

/-- Scenario C database: productC (id 3, price 10, stock 2). -/
def dbC : MarketDB :=
  { products := [{ id := 3, price := 10, stock := 2 }], carts := [], cartItems := [],
    orders := [], orderItems := [], nextCartId := 1, nextCartItemId := 1,
    nextOrderId := 1, nextOrderItemId := 1 }

/-- Scenario C cart: 5 units of productC, of which only 2 are in stock. -/
def itemsC : List CartItemWithDetails :=
  [{ id := 1, userId := 1, productId := 3, quantity := 5, size := "M", productPrice := 10 }]

/-- Duplicate-product scenario database: one product, id 1, stock 3. -/
def dbD : MarketDB :=
  { products := [{ id := 1, price := 10, stock := 3 }], carts := [], cartItems := [],
    orders := [], orderItems := [], nextCartId := 1, nextCartItemId := 1,
    nextOrderId := 1, nextOrderItemId := 1 }

/-- First cart line of the duplicate-product scenario: 2 units, size M. -/
def itemD1 : CartItemWithDetails :=
  { id := 1, userId := 1, productId := 1, quantity := 2, size := "M", productPrice := 10 }

/-- Second cart line of the duplicate-product scenario: 2 more units of the
same product, size L. -/
def itemD2 : CartItemWithDetails :=
  { id := 2, userId := 1, productId := 1, quantity := 2, size := "L", productPrice := 10 }

/-- A cart line referencing product 2, inserted first. -/
def cartLineP2 : CartItemWithDetails :=
  { id := 1, userId := 7, productId := 2, quantity := 1, size := "M", productPrice := 10 }

/-- A cart line referencing product 1, inserted second (so listed first by
`created_at DESC`). -/
def cartLineP1 : CartItemWithDetails :=
  { id := 2, userId := 7, productId := 1, quantity := 1, size := "M", productPrice := 20 }

/-- Database with one product (id 5) for the cart-merge scenario. -/
def cartDB0 : MarketDB :=
  { products := [{ id := 5, price := 10, stock := 100 }], carts := [], cartItems := [],
    orders := [], orderItems := [], nextCartId := 1, nextCartItemId := 1,
    nextOrderId := 1, nextOrderItemId := 1 }

/-- The state after user 1 adds (product 5, size M) twice: quantity 2, then
quantity 3. -/
def addTwiceState : MarketDB :=
  (CartRepository.AddItem
    (CartRepository.AddItem cartDB0 1 { productId := 5, quantity := 2, size := "M" }).1
    1 { productId := 5, quantity := 3, size := "M" }).1

/-- Two consecutive checkouts of the scenario A cart. -/
def callsW : List (Int × CreateOrderRequest × List CartItemWithDetails) :=
  [(1, reqA, itemsA), (1, reqA, itemsA)]

/-! ### Helper lemmas about the stock-update phase -/

theorem rowsAffected_cons (p : ProductRow) (ps : List ProductRow) (pid qty : Int) :
    rowsAffected (p :: ps) pid qty
      = (if p.id == pid && decide (qty ≤ p.stock) then 1 else 0) + rowsAffected ps pid qty := by
  simp only [rowsAffected, List.filter_cons]
  split <;> simp <;> omega

theorem applyStockUpdate_cons (p : ProductRow) (ps : List ProductRow) (pid qty : Int) :
    applyStockUpdate (p :: ps) pid qty
      = (if p.id == pid && decide (qty ≤ p.stock) then { p with stock := p.stock - qty } else p)
        :: applyStockUpdate ps pid qty := by
  simp [applyStockUpdate]

theorem stockOf_applyStockUpdate (ps : List ProductRow) (pid qty x : Int) :
    stockOf (applyStockUpdate ps pid qty) x
      = stockOf ps x - (if x = pid then qty * (rowsAffected ps pid qty : Int) else 0) := by
  induction ps with
  | nil => simp [applyStockUpdate, stockOf, rowsAffected]
  | cons p ps ih =>
    rw [applyStockUpdate_cons, rowsAffected_cons]
    cases hb : (p.id == pid && decide (qty ≤ p.stock)) with
    | false =>
      simp only [hb, if_false, stockOf, ih]
      by_cases hx : x = pid <;> simp [hx] <;> omega
    | true =>
      have hpidEq : p.id = pid := beq_iff_eq.mp ((Bool.and_eq_true _ _).mp hb).1
      by_cases hx : x = pid
      · subst hx
        have hpx : (p.id == x) = true := beq_iff_eq.mpr hpidEq
        simp only [hb, if_true, stockOf, hpx, ih, if_pos rfl]
        push_cast
        ring
      · have hpx : (p.id == x) = false := by
          apply beq_eq_false_iff_ne.mpr
          rw [hpidEq]
          exact fun h => hx h.symm
        simp [hb, stockOf, hpx, ih, hx]

theorem stockOf_updateStockAll (items : List CartItemWithDetails) :
    ∀ ps ps2, updateStockAll ps items = .ok ps2 →
      ∀ x, stockOf ps2 x = stockOf ps x - orderedQty items x := by
  induction items with
  | nil =>
    intro ps ps2 h x
    simp only [updateStockAll, Except.ok.injEq] at h
    subst h
    simp [orderedQty]
  | cons item rest ih =>
    intro ps ps2 h x
    simp only [updateStockAll] at h
    split at h
    case isTrue hra =>
      have hrec := ih _ _ h x
      rw [hrec, stockOf_applyStockUpdate, hra]
      simp only [orderedQty]
      by_cases hx : x = item.productId
      · have hx2 : (item.productId == x) = true := beq_iff_eq.mpr hx.symm
        simp [hx, hx2]
        omega
      · have hx2 : (item.productId == x) = false :=
          beq_eq_false_iff_ne.mpr (fun h2 => hx h2.symm)
        simp [hx, hx2]
    case isFalse hra => exact absurd h (by simp)

theorem applyStockUpdate_nonneg (ps : List ProductRow) (pid qty : Int)
    (h : ∀ p ∈ ps, 0 ≤ p.stock) :
    ∀ p ∈ applyStockUpdate ps pid qty, 0 ≤ p.stock := by
  intro p hp
  simp only [applyStockUpdate, List.mem_map] at hp
  obtain ⟨q, hq, rfl⟩ := hp
  split
  case isTrue hcond =>
    have h2 : qty ≤ q.stock := of_decide_eq_true ((Bool.and_eq_true _ _).mp hcond).2
    simp only []
    omega
  case isFalse _ => exact h q hq

theorem updateStockAll_nonneg (items : List CartItemWithDetails) :
    ∀ ps ps2, updateStockAll ps items = .ok ps2 → (∀ p ∈ ps, 0 ≤ p.stock) →
      ∀ p ∈ ps2, 0 ≤ p.stock := by
  induction items with
  | nil =>
    intro ps ps2 h h0
    simp only [updateStockAll, Except.ok.injEq] at h
    subst h
    exact h0
  | cons item rest ih =>
    intro ps ps2 h h0
    simp only [updateStockAll] at h
    split at h
    case isTrue hra =>
      exact ih _ _ h (applyStockUpdate_nonneg _ _ _ h0)
    case isFalse hra => exact absurd h (by simp)

theorem updateStockAll_append (pref rest : List CartItemWithDetails) :
    ∀ ps, updateStockAll ps (pref ++ rest)
      = match updateStockAll ps pref with
        | .error e => .error e
        | .ok ps2 => updateStockAll ps2 rest := by
  induction pref with
  | nil => intro ps; simp [updateStockAll]
  | cons item pr ih =>
    intro ps
    simp only [List.cons_append, updateStockAll]
    split
    · exact ih _
    · rfl

/-! ### Helper lemmas about order lines, totals, carts and validation -/

theorem mkOrderItems_proj (items : List CartItemWithDetails) :
    ∀ s oid, (mkOrderItems s oid items).map (fun l => (l.productId, l.quantity, l.price))
      = items.map (fun i => (i.productId, i.quantity, i.productPrice)) := by
  induction items with
  | nil => intro s oid; rfl
  | cons i rest ih => intro s oid; simp [mkOrderItems, ih]

theorem mkOrderItems_price (items : List CartItemWithDetails) :
    ∀ s oid, (mkOrderItems s oid items).map (fun l => l.price)
      = items.map (fun i => i.productPrice) := by
  induction items with
  | nil => intro s oid; rfl
  | cons i rest ih => intro s oid; simp [mkOrderItems, ih]

theorem foldl_add_map (f : CartItemWithDetails → Rat) (l : List CartItemWithDetails) :
    ∀ acc : Rat, l.foldl (fun a i => a + f i) acc = acc + (l.map f).sum := by
  induction l with
  | nil => intro acc; simp
  | cons i rest ih => intro acc; simp [ih, add_assoc]

theorem totalAmount_eq_sum (items : List CartItemWithDetails) :
    totalAmount items = (items.map (fun i => i.productPrice * (i.quantity : Rat))).sum := by
  simpa using foldl_add_map (fun i => i.productPrice * (i.quantity : Rat)) items 0

theorem mkOrderItems_sum (items : List CartItemWithDetails) :
    ∀ s oid, ((mkOrderItems s oid items).map (fun l => (l.quantity : Rat) * l.price)).sum
      = (items.map (fun i => i.productPrice * (i.quantity : Rat))).sum := by
  induction items with
  | nil => intro s oid; rfl
  | cons i rest ih =>
    intro s oid
    simp only [mkOrderItems, List.map_cons, List.sum_cons]
    rw [ih]
    ring

theorem getUserCart_eq_nil (db : MarketDB) (u : Int)
    (h : ∀ c ∈ db.carts, c.userId ≠ u) :
    CartRepository.GetUserCart db u = [] := by
  unfold CartRepository.GetUserCart
  rw [List.reverse_eq_nil_iff, List.filterMap_eq_nil_iff]
  intro ci _
  cases hfc : db.carts.find? (fun c => c.id == ci.cartId) with
  | none => simp
  | some c =>
    cases hfp : findProduct db.products ci.productId with
    | none => simp
    | some p =>
      have hc : c ∈ db.carts := List.mem_of_find?_eq_some hfc
      have hne : (c.userId == u) = false := beq_eq_false_iff_ne.mpr (h c hc)
      simp [hne]

theorem validatePhase_finds_shortfall (ps : List ProductRow) :
    ∀ items : List CartItemWithDetails,
      (∀ i ∈ items, (findProduct ps i.productId).isSome) →
      (∃ i ∈ items, ∃ p, findProduct ps i.productId = some p ∧ p.stock < i.quantity) →
      ∃ i ∈ items, ∃ p, findProduct ps i.productId = some p ∧ p.stock < i.quantity ∧
        validatePhase ps items = some (.insufficientStock i.productId i.quantity p.stock) := by
  intro items
  induction items with
  | nil => intro _ hbad; simp at hbad
  | cons i rest ih =>
    intro hall hbad
    cases hf : findProduct ps i.productId with
    | none =>
      have h1 := hall i (List.mem_cons_self _ _)
      rw [hf] at h1
      simp at h1
    | some p =>
      by_cases hlt : p.stock < i.quantity
      · exact ⟨i, List.mem_cons_self _ _, p, hf, hlt, by simp [validatePhase, hf, hlt]⟩
      · have hbad2 : ∃ j ∈ rest, ∃ q, findProduct ps j.productId = some q ∧ q.stock < j.quantity := by
          obtain ⟨j, hj, q, hfq, hq⟩ := hbad
          rcases List.mem_cons.mp hj with rfl | hj2
          · rw [hf] at hfq
            injection hfq with e
            subst e
            exact absurd hq hlt
          · exact ⟨j, hj2, q, hfq, hq⟩
        obtain ⟨j, hj, q, hfq, hq, hval⟩ :=
          ih (fun j hj => hall j (List.mem_cons_of_mem _ hj)) hbad2
        exact ⟨j, List.mem_cons_of_mem _ hj, q, hfq, hq,
          by simp [validatePhase, hf, hlt, hval]⟩

theorem find?_eq_of_filter_singleton {α : Type} (pred : α → Bool) :
    ∀ (l : List α) (a : α), l.filter pred = [a] → l.find? pred = some a := by
  intro l
  induction l with
  | nil => intro a h; simp at h
  | cons x xs ih =>
    intro a h
    cases hx : pred x with
    | true =>
      simp only [List.filter_cons, hx, if_true] at h
      injection h with h1 h2
      subst h1
      simp [List.find?_cons, hx]
    | false =>
      simp only [List.filter_cons, hx, if_false] at h
      simp [List.find?_cons, hx, ih a h]

theorem filter_map_comm_of_pred_pres {α : Type} (f : α → α) (pred : α → Bool)
    (hpres : ∀ a, pred (f a) = pred a) (l : List α) :
    (l.map f).filter pred = (l.filter pred).map f := by
  induction l with
  | nil => rfl
  | cons x xs ih =>
    simp only [List.map_cons, List.filter_cons, hpres]
    cases hx : pred x <;> simp [hx, ih]

theorem rowsAffected_split (ps : List ProductRow) (pid qty : Int) :
    rowsAffected ps pid qty
      = ((ps.filter (fun p => p.id == pid)).filter (fun p => decide (qty ≤ p.stock))).length := by
  induction ps with
  | nil => rfl
  | cons p ps ih =>
    simp only [rowsAffected, List.filter_cons] at *
    cases h1 : (p.id == pid) <;> cases h2 : decide (qty ≤ p.stock) <;>
      simp [h1, h2, ih]

/-- The success equation of `OrderRepository.Create`: when validation passes
and every stock decrement affects exactly one row, the transaction commits
with exactly these effects. -/
theorem create_ok_eq (db : MarketDB) (u : Int) (req : CreateOrderRequest)
    (items : List CartItemWithDetails) (ps2 : List ProductRow)
    (hval : validatePhase db.products items = none)
    (hupd : updateStockAll db.products items = .ok ps2) :
    OrderRepository.Create db u req items =
      .ok ({ db with
               products := ps2
               orders := db.orders ++
                 [{ id := db.nextOrderId, userId := u, totalAmount := totalAmount items,
                    status := "pending", paymentMethod := req.paymentMethod,
                    paymentStatus := "pending", deliveryAddr := req.deliveryAddr }]
               orderItems := db.orderItems ++ mkOrderItems db.nextOrderItemId db.nextOrderId items
               carts := db.carts.filter (fun c => !(c.userId == u))
               cartItems := db.cartItems.filter (fun ci =>
                 !(((db.carts.filter (fun c => c.userId == u)).map (fun c => c.id)).contains ci.cartId))
               nextOrderId := db.nextOrderId + 1
               nextOrderItemId := db.nextOrderItemId
                 + ((mkOrderItems db.nextOrderItemId db.nextOrderId items).length : Int) },
           { order := { id := db.nextOrderId, userId := u, totalAmount := totalAmount items,
                        status := "pending", paymentMethod := req.paymentMethod,
                        paymentStatus := "pending", deliveryAddr := req.deliveryAddr },
             items := mkOrderItems db.nextOrderItemId db.nextOrderId items }) := by
  simp [OrderRepository.Create, hval, hupd]

/-- Inversion of a successful `OrderRepository.Create`. -/
theorem create_ok_inv (db : MarketDB) (u : Int) (req : CreateOrderRequest)
    (items : List CartItemWithDetails) (db2 : MarketDB) (res : OrderWithItems)
    (h : OrderRepository.Create db u req items = .ok (db2, res)) :
    res.order = { id := db.nextOrderId, userId := u, totalAmount := totalAmount items,
                  status := "pending", paymentMethod := req.paymentMethod,
                  paymentStatus := "pending", deliveryAddr := req.deliveryAddr } ∧
    res.items = mkOrderItems db.nextOrderItemId db.nextOrderId items ∧
    db2.orders = db.orders ++ [res.order] ∧
    db2.carts = db.carts.filter (fun c => !(c.userId == u)) ∧
    db2.cartItems = db.cartItems.filter (fun ci =>
      !(((db.carts.filter (fun c => c.userId == u)).map (fun c => c.id)).contains ci.cartId)) := by
  cases hval : validatePhase db.products items with
  | some e =>
    have he : OrderRepository.Create db u req items = .error e := by
      simp [OrderRepository.Create, hval]
    rw [he] at h
    exact absurd h (by simp)
  | none =>
    cases hupd : updateStockAll db.products items with
    | error e =>
      have he : OrderRepository.Create db u req items = .error e := by
        simp [OrderRepository.Create, hval, hupd]
      rw [he] at h
      exact absurd h (by simp)
    | ok ps2 =>
      rw [create_ok_eq db u req items ps2 hval hupd] at h
      injection h with h2
      have hd : _ = db2 := congrArg Prod.fst h2
      have hr : _ = res := congrArg Prod.snd h2
      subst hd
      subst hr
      exact ⟨rfl, rfl, rfl, rfl, rfl⟩

/-- C1: checkout is all-or-nothing.  Every call to `OrderRepository.Create`
either fails, leaving the caller-visible database unchanged (no order row, no
order items, no stock change, cart intact), or succeeds having appended
exactly one order row, appended one order line per cart item (carrying its
product, quantity and snapshot price), decremented the stock of each product by
the total ordered quantity, and left the user with no cart lines. -/
theorem create_is_all_or_nothing (db : MarketDB) (u : Int) (req : CreateOrderRequest)
    (items : List CartItemWithDetails) :
    (∃ e, OrderRepository.Create db u req items = .error e ∧
       createResultState db u req items = db) ∨
    (∃ db2 res, OrderRepository.Create db u req items = .ok (db2, res) ∧
       db2.orders = db.orders ++ [res.order] ∧
       db2.orderItems = db.orderItems ++ res.items ∧
       res.items.map (fun l => (l.productId, l.quantity, l.price))
         = items.map (fun i => (i.productId, i.quantity, i.productPrice)) ∧
       (∀ pid, stockOf db2.products pid = stockOf db.products pid - orderedQty items pid) ∧
       (∀ c ∈ db2.carts, c.userId ≠ u) ∧
       CartRepository.GetUserCart db2 u = []) := by
  cases hval : validatePhase db.products items with
  | some e =>
    left
    exact ⟨e, by simp [OrderRepository.Create, hval],
      by simp [createResultState, OrderRepository.Create, hval]⟩
  | none =>
    cases hupd : updateStockAll db.products items with
    | error e =>
      left
      exact ⟨e, by simp [OrderRepository.Create, hval, hupd],
        by simp [createResultState, OrderRepository.Create, hval, hupd]⟩
    | ok ps2 =>
      right
      refine ⟨_, _, create_ok_eq db u req items ps2 hval hupd, rfl, rfl,
        mkOrderItems_proj items _ _, ?_, ?_, ?_⟩
      · intro pid
        exact stockOf_updateStockAll items db.products ps2 hupd pid
      · intro c hc
        have h2 := (List.mem_filter.mp hc).2
        simp only [Bool.not_eq_true'] at h2
        exact beq_eq_false_iff_ne.mp h2
      · apply getUserCart_eq_nil
        intro c hc
        have h2 := (List.mem_filter.mp hc).2
        simp only [Bool.not_eq_true'] at h2
        exact beq_eq_false_iff_ne.mp h2

/-- Inversion of a successful `OrderRepository.Create` for the products
table: the committed stock state is the one the update phase produced. -/
theorem create_ok_products (db : MarketDB) (u : Int) (req : CreateOrderRequest)
    (items : List CartItemWithDetails) (db2 : MarketDB) (res : OrderWithItems)
    (h : OrderRepository.Create db u req items = .ok (db2, res)) :
    updateStockAll db.products items = .ok db2.products := by
  cases hval : validatePhase db.products items with
  | some e =>
    have he : OrderRepository.Create db u req items = .error e := by
      simp [OrderRepository.Create, hval]
    rw [he] at h
    exact absurd h (by simp)
  | none =>
    cases hupd : updateStockAll db.products items with
    | error e =>
      have he : OrderRepository.Create db u req items = .error e := by
        simp [OrderRepository.Create, hval, hupd]
      rw [he] at h
      exact absurd h (by simp)
    | ok ps2 =>
      rw [create_ok_eq db u req items ps2 hval hupd] at h
      injection h with h2
      have hd : _ = db2 := congrArg Prod.fst h2
      subst hd
      rfl

/-- One checkout step never drives any stock negative. -/
theorem createResultState_nonneg (db : MarketDB) (u : Int) (req : CreateOrderRequest)
    (items : List CartItemWithDetails) (h0 : ∀ p ∈ db.products, 0 ≤ p.stock) :
    ∀ p ∈ (createResultState db u req items).products, 0 ≤ p.stock := by
  unfold createResultState
  cases hc : OrderRepository.Create db u req items with
  | error e => exact h0
  | ok pr =>
    obtain ⟨db2, res⟩ := pr
    have hupd := create_ok_products db u req items db2 res hc
    exact updateStockAll_nonneg items db.products db2.products hupd h0

/-- C4: when the requested quantity of some cart line exceeds the
current stock (and every referenced product exists, so the validate loop
reaches the shortfall), `OrderRepository.Create` aborts the whole transaction
with an insufficient-stock error identifying an offending product id, its
requested quantity and its available stock; the caller-visible database is
unchanged — stock untouched, no order persisted. -/
theorem create_insufficient_stock_aborts (db : MarketDB) (u : Int)
    (req : CreateOrderRequest) (items : List CartItemWithDetails)
    (hall : ∀ i ∈ items, (findProduct db.products i.productId).isSome)
    (hbad : ∃ i ∈ items, ∃ p, findProduct db.products i.productId = some p ∧
      p.stock < i.quantity) :
    ∃ i ∈ items, ∃ p, findProduct db.products i.productId = some p ∧
      p.stock < i.quantity ∧
      OrderRepository.Create db u req items
        = .error (.insufficientStock i.productId i.quantity p.stock) ∧
      createResultState db u req items = db := by
  obtain ⟨i, hi, p, hf, hlt, hval⟩ := validatePhase_finds_shortfall db.products items hall hbad
  refine ⟨i, hi, p, hf, hlt, ?_, ?_⟩
  · simp [OrderRepository.Create, hval]
  · simp [createResultState, OrderRepository.Create, hval]

/-- C5: product stock never becomes negative along any sequence of checkout
calls — each checkout only decrements a stock it has just validated, and the
decrement itself is conditioned on `stock >= qty`. -/
theorem create_stock_nonnegative (db : MarketDB)
    (h0 : ∀ p ∈ db.products, 0 ≤ p.stock) :
    ∀ calls : List (Int × CreateOrderRequest × List CartItemWithDetails),
      ∀ p ∈ (checkoutSeq db calls).products, 0 ≤ p.stock := by
  intro calls
  induction calls generalizing db with
  | nil => simpa [checkoutSeq] using h0
  | cons c rest ih =>
    simp only [checkoutSeq]
    exact ih _ (createResultState_nonneg db c.1 c.2.1 c.2.2 h0)

/-- C6: for every successful checkout, the persisted order field `total_amount`
equals exactly the sum over its order lines of quantity × unit price, the
unit prices being the snapshot product prices carried by the cart lines. -/
theorem create_total_amount_exact (db : MarketDB) (u : Int) (req : CreateOrderRequest)
    (items : List CartItemWithDetails) (db2 : MarketDB) (res : OrderWithItems)
    (h : OrderRepository.Create db u req items = .ok (db2, res)) :
    res.order.totalAmount = (res.items.map (fun l => (l.quantity : Rat) * l.price)).sum ∧
    res.order ∈ db2.orders ∧
    res.items.map (fun l => l.price) = items.map (fun i => i.productPrice) := by
  obtain ⟨ho, hi, hord, _, _⟩ := create_ok_inv db u req items db2 res h
  refine ⟨?_, ?_, ?_⟩
  · rw [ho, hi]
    show totalAmount items = _
    rw [totalAmount_eq_sum, mkOrderItems_sum]
  · rw [hord]
    simp
  · rw [hi]
    exact mkOrderItems_price items _ _

/-- C7: with zero cart lines, `MarketService.CreateOrder` fails with the
empty-cart error before invoking the order repository (so before any
transaction or lock), and the database is unchanged — no order row. -/
theorem create_order_empty_cart (db : MarketDB) (u : Int) (req : CreateOrderRequest)
    (h : CartRepository.GetUserCart db u = []) :
    MarketService.CreateOrder db u req = .error .emptyCart ∧
    serviceResultState db u req = db := by
  constructor
  · simp [MarketService.CreateOrder, h]
  · simp [serviceResultState, MarketService.CreateOrder, h]

/-- C8: after every successful checkout the user has zero cart lines: the
transaction deletes the `carts` rows of the user, and no surviving `cart_items`
row references any cart the user owned (the `ON DELETE CASCADE` removal). -/
theorem create_clears_cart (db : MarketDB) (u : Int) (req : CreateOrderRequest)
    (items : List CartItemWithDetails) (db2 : MarketDB) (res : OrderWithItems)
    (h : OrderRepository.Create db u req items = .ok (db2, res)) :
    CartRepository.GetUserCart db2 u = [] ∧
    (∀ c ∈ db2.carts, c.userId ≠ u) ∧
    (∀ ci ∈ db2.cartItems, ∀ c ∈ db.carts, c.id = ci.cartId → c.userId ≠ u) := by
  obtain ⟨_, _, _, hcarts, hcartItems⟩ := create_ok_inv db u req items db2 res h
  have hnc : ∀ c ∈ db2.carts, c.userId ≠ u := by
    intro c hc
    rw [hcarts] at hc
    have h2 := (List.mem_filter.mp hc).2
    simp only [Bool.not_eq_true'] at h2
    exact beq_eq_false_iff_ne.mp h2
  refine ⟨getUserCart_eq_nil db2 u hnc, hnc, ?_⟩
  intro ci hci c hc hid hu
  rw [hcartItems] at hci
  have h2 := (List.mem_filter.mp hci).2
  simp only [Bool.not_eq_true'] at h2
  have hcf : c ∈ db.carts.filter (fun c2 => c2.userId == u) :=
    List.mem_filter.mpr ⟨hc, beq_iff_eq.mpr hu⟩
  have hmem : ci.cartId ∈ (db.carts.filter (fun c2 => c2.userId == u)).map (fun c2 => c2.id) := by
    rw [← hid]
    exact List.mem_map_of_mem _ hcf
  have h3 : ((db.carts.filter (fun c2 => c2.userId == u)).map (fun c2 => c2.id)).contains
      ci.cartId = true :=
    List.contains_iff_exists_mem_beq.mpr ⟨ci.cartId, hmem, by simp⟩
  rw [h2] at h3
  exact Bool.noConfusion h3

/-- C9: the stock decrement is the conditional write
`UPDATE products SET stock = stock - qty WHERE id = pid AND stock >= qty`;
whenever, at any position of the update loop, that write affects a number of
rows other than one, `OrderRepository.Create` aborts the transaction with the
internal concurrent-modification error and the database is unchanged — it
never silently proceeds. -/
theorem create_rows_affected_guard (db : MarketDB) (u : Int) (req : CreateOrderRequest)
    (pref : List CartItemWithDetails) (item : CartItemWithDetails)
    (suff : List CartItemWithDetails) (ps2 : List ProductRow)
    (hval : validatePhase db.products (pref ++ item :: suff) = none)
    (hpref : updateStockAll db.products pref = .ok ps2)
    (hrows : rowsAffected ps2 item.productId item.quantity ≠ 1) :
    OrderRepository.Create db u req (pref ++ item :: suff)
      = .error (.stockUpdateConflict item.productId) ∧
    createResultState db u req (pref ++ item :: suff) = db := by
  have hupd : updateStockAll db.products (pref ++ item :: suff)
      = .error (.stockUpdateConflict item.productId) := by
    rw [updateStockAll_append pref (item :: suff) db.products, hpref]
    simp [updateStockAll, hrows]
  constructor
  · simp [OrderRepository.Create, hval, hupd]
  · simp [createResultState, OrderRepository.Create, hval, hupd]

/-- C10: a cart with two lines for the same product (e.g. distinct variants)
whose individual quantities each fit the stock but whose sum exceeds it
passes the validate phase (each line is compared separately against the same
stock value read under lock), then the conditional decrement for the later
line affects zero rows, and `OrderRepository.Create` aborts with the internal
concurrent-modification error — not an insufficient-stock error — with no
state change persisted. -/
theorem create_duplicate_product_internal_error (db : MarketDB) (u : Int)
    (req : CreateOrderRequest) (i1 i2 : CartItemWithDetails) (p : ProductRow)
    (hp : db.products.filter (fun q => q.id == i1.productId) = [p])
    (hsame : i2.productId = i1.productId)
    (h1 : i1.quantity ≤ p.stock) (h2 : i2.quantity ≤ p.stock)
    (hsum : p.stock < i1.quantity + i2.quantity) :
    validatePhase db.products [i1, i2] = none ∧
    OrderRepository.Create db u req [i1, i2] = .error (.stockUpdateConflict i2.productId) ∧
    createResultState db u req [i1, i2] = db := by
  have hfind : findProduct db.products i1.productId = some p :=
    find?_eq_of_filter_singleton _ db.products p hp
  have hpmem : p ∈ db.products.filter (fun q => q.id == i1.productId) := by
    rw [hp]
    exact List.mem_singleton_self p
  have hpid : p.id = i1.productId := beq_iff_eq.mp (List.mem_filter.mp hpmem).2
  have hval : validatePhase db.products [i1, i2] = none := by
    simp [validatePhase, hfind, hsame, not_lt.mpr h1, not_lt.mpr h2]
  have hra1 : rowsAffected db.products i1.productId i1.quantity = 1 := by
    rw [rowsAffected_split, hp]
    simp [h1]
  have hcomm := filter_map_comm_of_pred_pres
    (fun p2 => if p2.id == i1.productId && decide (i1.quantity ≤ p2.stock) then
      { p2 with stock := p2.stock - i1.quantity } else p2)
    (fun q => q.id == i1.productId)
    (by
      intro a
      dsimp only
      split
      · rfl
      · rfl)
    db.products
  have hps2filter : (applyStockUpdate db.products i1.productId i1.quantity).filter
      (fun q => q.id == i1.productId) = [{ p with stock := p.stock - i1.quantity }] := by
    unfold applyStockUpdate
    rw [hcomm, hp]
    simp [hpid, h1]
  have hra2 : rowsAffected (applyStockUpdate db.products i1.productId i1.quantity)
      i2.productId i2.quantity = 0 := by
    rw [hsame, rowsAffected_split, hps2filter]
    have hns : ¬(i2.quantity ≤ p.stock - i1.quantity) := by omega
    simp [hns]
  have hupd : updateStockAll db.products [i1, i2]
      = .error (.stockUpdateConflict i2.productId) := by
    simp [updateStockAll, hra1, hra2]
  refine ⟨hval, ?_, ?_⟩
  · simp [OrderRepository.Create, hval, hupd]
  · simp [createResultState, OrderRepository.Create, hval, hupd]

/-- C2 (refuted on the code): `OrderRepository.Create` does not sort the
distinct product ids before locking — for a cart listing product 2 before
product 1, the `FOR UPDATE` locks are issued in cart order `[2, 1]`, not in
the ascending order `[1, 2]` the spec prescribes. -/
theorem lock_order_not_sorted :
    lockAcquisitionOrder [cartLineP2, cartLineP1] = [2, 1] ∧
    specSortedDistinctProductIds [cartLineP2, cartLineP1] = [1, 2] ∧
    lockAcquisitionOrder [cartLineP2, cartLineP1]
      ≠ specSortedDistinctProductIds [cartLineP2, cartLineP1] := by
  refine ⟨rfl, by decide, by decide⟩

/-- C3 (refuted on the code): two `AddItem` calls for the same
`(user, product, variant)` leave two `cart_items` rows (quantities 2 and 3),
not one merged row of quantity 5 — the always-NULL color makes the
`ON CONFLICT` clause never fire under `UNIQUE(cart_id, product_id, size,
color)`, since NULLs are distinct. -/
theorem add_item_twice_duplicates :
    addTwiceState.cartItems.map (fun r => (r.cartId, r.productId, r.size, r.quantity))
      = [(1, 5, "M", 2), (1, 5, "M", 3)] ∧
    ¬ ∃ r ∈ addTwiceState.cartItems, r.quantity = 5 := by
  refine ⟨by decide, by decide⟩


/-- The scenario A checkout evaluated: it commits to `dbA2` returning `resA`. -/
theorem scenarioA_create_eq :
    OrderRepository.Create dbA 1 reqA itemsA = .ok (dbA2, resA) := by
  rw [create_ok_eq dbA 1 reqA itemsA
      [{ id := 1, price := 25, stock := 8 }, { id := 2, price := 50, stock := 4 }] rfl rfl]
  simp [dbA, dbA2, resA, reqA, mkOrderItems, itemsA]
  norm_num [totalAmount, List.foldl]

/-! ### Witnesses -/

/-- C4 witness at Scenario C: stock 2, requested 5. -/
theorem create_insufficient_stock_aborts_witness :
    (∀ i ∈ itemsC, (findProduct dbC.products i.productId).isSome) ∧
    (∃ i ∈ itemsC, ∃ p, findProduct dbC.products i.productId = some p ∧
      p.stock < i.quantity ∧
      OrderRepository.Create dbC 1 reqA itemsC
        = .error (.insufficientStock i.productId i.quantity p.stock) ∧
      createResultState dbC 1 reqA itemsC = dbC) :=
  ⟨by decide,
   create_insufficient_stock_aborts dbC 1 reqA itemsC (by decide)
     ⟨{ id := 1, userId := 1, productId := 3, quantity := 5, size := "M", productPrice := 10 },
      by decide, { id := 3, price := 10, stock := 2 }, by decide, by decide⟩⟩

/-- C5 witness: two checkouts starting from Scenario A leave all stocks
non-negative. -/
theorem create_stock_nonnegative_witness :
    (∀ p ∈ dbA.products, 0 ≤ p.stock) ∧
    ∀ p ∈ (checkoutSeq dbA callsW).products, 0 ≤ p.stock :=
  ⟨by decide, create_stock_nonnegative dbA (by decide) callsW⟩

/-- C6 witness at Scenario A: the cart 1×50 + 2×25 commits with
total_amount exactly 100. -/
theorem create_total_amount_exact_witness :
    resA.order.totalAmount = (resA.items.map (fun l => (l.quantity : Rat) * l.price)).sum ∧
    resA.order ∈ dbA2.orders ∧
    resA.items.map (fun l => l.price) = itemsA.map (fun i => i.productPrice) :=
  create_total_amount_exact dbA 1 reqA itemsA dbA2 resA scenarioA_create_eq

/-- C7 witness at Scenario B: an empty cart fails with the empty-cart error
and leaves the database unchanged. -/
theorem create_order_empty_cart_witness :
    MarketService.CreateOrder emptyDB 1 reqA = .error .emptyCart ∧
    serviceResultState emptyDB 1 reqA = emptyDB :=
  create_order_empty_cart emptyDB 1 reqA rfl

/-- C8 witness at Scenario A: after the successful checkout user 1 has no
cart lines. -/
theorem create_clears_cart_witness :
    CartRepository.GetUserCart dbA2 1 = [] ∧
    (∀ c ∈ dbA2.carts, c.userId ≠ 1) ∧
    (∀ ci ∈ dbA2.cartItems, ∀ c ∈ dbA.carts, c.id = ci.cartId → c.userId ≠ 1) :=
  create_clears_cart dbA 1 reqA itemsA dbA2 resA scenarioA_create_eq

/-- C9 witness: with stock 3 and two validated lines of 2 units each, the
second conditional decrement affects zero rows and the transaction aborts
with the internal error. -/
theorem create_rows_affected_guard_witness :
    OrderRepository.Create dbD 1 reqA ([itemD1] ++ itemD2 :: [])
      = .error (.stockUpdateConflict itemD2.productId) ∧
    createResultState dbD 1 reqA ([itemD1] ++ itemD2 :: []) = dbD :=
  create_rows_affected_guard dbD 1 reqA [itemD1] itemD2 []
    [{ id := 1, price := 10, stock := 1 }] (by decide) rfl (by decide)

/-- C10 witness: two size variants of product 1 (stock 3), 2 units each,
pass validation and abort in the update phase with the internal error. -/
theorem create_duplicate_product_internal_error_witness :
    validatePhase dbD.products [itemD1, itemD2] = none ∧
    OrderRepository.Create dbD 1 reqA [itemD1, itemD2]
      = .error (.stockUpdateConflict itemD2.productId) ∧
    createResultState dbD 1 reqA [itemD1, itemD2] = dbD :=
  create_duplicate_product_internal_error dbD 1 reqA itemD1 itemD2
    { id := 1, price := 10, stock := 3 } (by decide) (by decide) (by decide)
    (by decide) (by decide)
